import Mathlib

/-!
# A verification development for the user REST service

The service exposes five handlers over one MongoDB collection of user
documents (`controllers/user_controller.go`).  Each handler is embedded as a
pure function from the collection state (and the request) to the reply and the
next collection state.

What the handlers call but do not define is modelled as follows.

* The collection is a list of user documents with pairwise distinct `_id`
  (MongoDB keeps a unique index on `_id`).  Driver or network failures are
  outside the model: a store operation fails only for the reasons the data
  gives (no matching document, duplicate `_id`).
* `time.Now().String()` and the `ObjectID` the driver generates for a document
  inserted without `_id` are inputs of `CreateUser` (`Env`).
* A request is a JSON request, as in every test of `main_test.go`: its body is
  either rejected by the parser or a JSON object.  Member keys denote struct
  fields as in `encoding/json`: by folded name, so that letter case, the long
  s U+017F and the Kelvin sign U+212A make no difference.
-/

namespace RestApi

/-! ## models/user_model.go -/

/-- The record type `models.User`: five string fields. -/
structure User where
  Name : String
  DOB : String
  Address : String
  Description : String
  CreatedAt : String
deriving DecidableEq

/-- The zero value of `models.User` (what `var user models.User` holds). -/
def User.zero : User := ⟨"", "", "", "", ""⟩

/-! ## Identifiers: `primitive.ObjectID` -/

/-- A `primitive.ObjectID` is a `[12]byte`. -/
structure ObjectID where
  bytes : List (Fin 256)
  size : bytes.length = 12

instance : DecidableEq ObjectID := fun a b =>
  decidable_of_iff (a.bytes = b.bytes)
    ⟨fun h => by cases a; cases b; cases h; rfl, fun h => by rw [h]⟩

/-- The zero value `primitive.NilObjectID`. -/
def NilObjectID : ObjectID := ⟨List.replicate 12 0, rfl⟩

/-- Go `encoding/hex.fromHexChar`: the value of one hexadecimal digit. -/
def fromHexChar (c : Char) : Option Nat :=
  let n := c.toNat
  if 48 ≤ n ∧ n ≤ 57 then some (n - 48)
  else if 97 ≤ n ∧ n ≤ 102 then some (n - 97 + 10)
  else if 65 ≤ n ∧ n ≤ 70 then some (n - 65 + 10)
  else none

/-- Go `encoding/hex.DecodeString` on the characters of the token: pairs of
hexadecimal digits become bytes `(a << 4) | b`; an odd length or a character
that is not a hexadecimal digit is an error.  (A character outside ASCII is
several bytes none of which is a hexadecimal digit, so the error cases agree
with the byte-wise decoder.) -/
def hexDecode : List Char → Option (List (Fin 256))
  | [] => some []
  | [_] => none
  | p :: q :: rest =>
    match fromHexChar p, fromHexChar q, hexDecode rest with
    | some a, some b, some bs => some (⟨(a * 16 + b) % 256, Nat.mod_lt _ (by decide)⟩ :: bs)
    | _, _, _ => none

/-- Go `len(s)`: the number of bytes of the UTF-8 encoding. -/
def byteLen : List Char → Nat
  | [] => 0
  | c :: cs => c.utf8Size + byteLen cs

/-- The function `primitive.ObjectIDFromHex`: the identifier and whether the
token was valid.  On an error the identifier returned is `NilObjectID`.  On
success the decoded bytes are copied into a zeroed `[12]byte`. -/
def ObjectIDFromHex (s : String) : ObjectID × Bool :=
  if byteLen s.data ≠ 24 then (NilObjectID, false)
  else
    match hexDecode s.data with
    | none => (NilObjectID, false)
    | some b => (⟨(b ++ List.replicate 12 0).take 12, by simp⟩, true)

/-- The digit table of `encoding/hex`: `"0123456789abcdef"[n]`. -/
def hexDigit (n : Nat) : Char :=
  "0123456789abcdef".data.getD n '0'

/-- Go `encoding/hex.EncodeToString`: two lower-case digits per byte. -/
def hexEncode (bs : List (Fin 256)) : List Char :=
  bs.flatMap fun b => [hexDigit (b.val / 16), hexDigit (b.val % 16)]

/-- The method `ObjectID.Hex`. -/
def ObjectID.Hex (id : ObjectID) : String :=
  ⟨hexEncode id.bytes⟩

/-! ## Errors and replies -/

/-- The error values the handlers can meet; `err.Error()` is the value itself. -/
inductive Err where
  /-- The error `c.BodyParser` returns for a body it cannot parse. -/
  | badBody
  /-- The error `validator.ValidationErrors`: the fields that failed `required`. -/
  | validation (fields : List String)
  /-- The error `mongo.ErrNoDocuments`. -/
  | noDocuments
  /-- The server's duplicate-key write error on the `_id` index. -/
  | duplicateKey
deriving DecidableEq

/-- A stored user document.  The struct codec of the driver names the fields by
the lower-cased Go field names, next to the `_id` the driver adds. -/
structure Document where
  _id : ObjectID
  name : String
  dob : String
  address : String
  description : String
  createdat : String
deriving DecidableEq

/-- The result `mongo.InsertOneResult`. -/
structure InsertOneResult where
  InsertedID : ObjectID
deriving DecidableEq

/-- The value under the key `"data"` of the `fiber.Map` of a reply. -/
inductive Payload where
  /-- An `err.Error()`. -/
  | error (e : Err)
  /-- A literal message. -/
  | text (s : String)
  /-- The `*mongo.InsertOneResult` of a creation. -/
  | inserted (r : InsertOneResult)
  /-- One `models.User`. -/
  | user (u : User)
  /-- The `[]bson.M` of a listing. -/
  | users (l : List Document)
deriving DecidableEq

/-- Modelled from the spec: the type `responses.UserResponse` (package
`my-rest-api/responses`), the envelope with a status, a message
`"success"` or `"error"`, and the payload under `"data"`. -/
structure UserResponse where
  Status : Nat
  Message : String
  Data : Payload
deriving DecidableEq

/-- What `c.Status(code).JSON(body)` sends. -/
structure Reply where
  code : Nat
  body : UserResponse
deriving DecidableEq

def StatusOK : Nat := 200
def StatusCreated : Nat := 201
def StatusBadRequest : Nat := 400
def StatusNotFound : Nat := 404
def StatusInternalServerError : Nat := 500

/-! ## The request body and `c.BodyParser` -/

/-- The body of a JSON request, as far as the parser tells bodies apart: a
body it rejects, or a JSON object, given by its string members in order
(a member whose value is `null` leaves the struct as it is, like no member). -/
inductive Body where
  /-- A body the parser rejects: not a JSON object, or a member of a field of
  `models.User` that is neither a string nor `null`. -/
  | malformed
  /-- A JSON object the parser accepts. -/
  | object (members : List (String × String))
deriving DecidableEq

/-- Go `encoding/json.foldRune`: the smallest rune of the simple case-folding
orbit.  The orbit of an ASCII letter is its two cases, joined for `s` by the
long s U+017F and for `k` by the Kelvin sign U+212A.  Every other rune folds
among runes that are not ASCII letters, so it can match no letter of a tag and
is kept as it is. -/
def foldRune (c : Char) : Char :=
  if 97 ≤ c.toNat ∧ c.toNat ≤ 122 then Char.ofNat (c.toNat - 32)
  else if c.toNat = 0x17F then 'S'
  else if c.toNat = 0x212A then 'K'
  else c

/-- Go `encoding/json.foldName`: the name with every rune folded. -/
def foldName (name : String) : List Char :=
  name.data.map foldRune

/-- The fields of `models.User`. -/
inductive Field where
  | name | dob | address | description | createdAt
deriving DecidableEq

/-- The `json` tag of each field of `models.User`. -/
def Field.tag : Field → String
  | .name => "name"
  | .dob => "dob"
  | .address => "address"
  | .description => "description"
  | .createdAt => "createdAt"

/-- The struct field a member key denotes.  The decoder of `encoding/json`
takes the field whose tag has the same folded name as the key (an exact match
is a folded match, and no two tags share a folded name); keys that match no
tag are skipped. -/
def fieldOfKey (key : String) : Option Field :=
  let k := foldName key
  if k = foldName Field.name.tag then some .name
  else if k = foldName Field.dob.tag then some .dob
  else if k = foldName Field.address.tag then some .address
  else if k = foldName Field.description.tag then some .description
  else if k = foldName Field.createdAt.tag then some .createdAt
  else none

def User.setField (u : User) (f : Field) (v : String) : User :=
  match f with
  | .name => { u with Name := v }
  | .dob => { u with DOB := v }
  | .address => { u with Address := v }
  | .description => { u with Description := v }
  | .createdAt => { u with CreatedAt := v }

def User.getField (u : User) (f : Field) : String :=
  match f with
  | .name => u.Name
  | .dob => u.DOB
  | .address => u.Address
  | .description => u.Description
  | .createdAt => u.CreatedAt

/-- Decoding one member into the struct: the string is stored in the field the
key denotes; a key that denotes no field is skipped. -/
def unmarshalMember (u : User) (m : String × String) : User :=
  match fieldOfKey m.1 with
  | none => u
  | some f => u.setField f m.2

/-- The call `c.BodyParser(&user)` on a JSON request. -/
def BodyParser (body : Body) (user : User) : Except Err User :=
  match body with
  | .malformed => .error .badBody
  | .object members => .ok (members.foldl unmarshalMember user)

/-- The value a body gives a field: the string of the last member whose key
denotes the field, and the empty string when the field is absent. -/
def Body.field (body : Body) (f : Field) : String :=
  match body with
  | .malformed => ""
  | .object members =>
    match (members.filter fun m => fieldOfKey m.1 = some f).getLast? with
    | none => ""
    | some m => m.2

/-- All four business fields of the body are present and non-empty. -/
def Body.complete (body : Body) : Prop :=
  body.field .name ≠ "" ∧ body.field .dob ≠ "" ∧ body.field .address ≠ "" ∧
    body.field .description ≠ ""

instance (body : Body) : Decidable body.complete := by
  unfold Body.complete; infer_instance

/-- The call `validate.Struct(&user)`: the tag `validate:"required"` on a
string field fails exactly on the empty string. -/
def validate.Struct (user : User) : Option Err :=
  let failed :=
    (if user.Name = "" then ["Name"] else []) ++
    (if user.DOB = "" then ["DOB"] else []) ++
    (if user.Address = "" then ["Address"] else []) ++
    (if user.Description = "" then ["Description"] else [])
  if failed = [] then none else some (.validation failed)

/-! ## The collection `userCollection` and the driver calls on it -/

/-- What `bson.Marshal` of a `models.User` stores under a given `_id`. -/
def User.toDocument (u : User) (id : ObjectID) : Document :=
  { _id := id, name := u.Name, dob := u.DOB, address := u.Address,
    description := u.Description, createdat := u.CreatedAt }

/-- The method `SingleResult.Decode(&user)` on a found document. -/
def Document.Decode (d : Document) : User :=
  { Name := d.name, DOB := d.dob, Address := d.address,
    Description := d.description, CreatedAt := d.createdat }

/-- One assignment of a `$set` update.  The handlers only ever set keys of the
user document; a key outside it would add a field no handler reads. -/
def Document.setKey (d : Document) (kv : String × String) : Document :=
  if kv.1 = "name" then { d with name := kv.2 }
  else if kv.1 = "dob" then { d with dob := kv.2 }
  else if kv.1 = "address" then { d with address := kv.2 }
  else if kv.1 = "description" then { d with description := kv.2 }
  else if kv.1 = "createdat" then { d with createdat := kv.2 }
  else d

/-- The update `bson.M{"$set": update}` applied to one document. -/
def Document.applySet (d : Document) (update : List (String × String)) : Document :=
  update.foldl Document.setKey d

/-- The `$set` update applied to the first document whose `_id` is `id`. -/
def setFirst (id : ObjectID) (update : List (String × String)) : List Document → List Document
  | [] => []
  | d :: ds => if d._id = id then d.applySet update :: ds else d :: setFirst id update ds

/-- The state of the collection: the documents in the order the store lists
them, with the unique index on `_id`. -/
structure Collection where
  docs : List Document
  unique : (docs.map (·._id)).Nodup

instance : DecidableEq Collection := fun a b =>
  decidable_of_iff (a.docs = b.docs)
    ⟨fun h => by cases a; cases b; cases h; rfl, fun h => by rw [h]⟩

/-- The empty collection. -/
def Collection.empty : Collection := ⟨[], List.nodup_nil⟩

/-- The identifiers present in the collection. -/
def Collection.ids (coll : Collection) : List ObjectID := coll.docs.map (·._id)

/-- The call `userCollection.InsertOne(ctx, newUser)`.  The document has no
`_id`, so the driver adds the identifier it generated (`newID`); the server
rejects it when the identifier is already in the collection. -/
def Collection.InsertOne (coll : Collection) (newID : ObjectID) (newUser : User) :
    Except Err (InsertOneResult × Collection) :=
  if h : newID ∈ coll.ids then .error .duplicateKey
  else .ok (⟨newID⟩,
    ⟨coll.docs ++ [newUser.toDocument newID], by
      have hu := coll.unique
      simp only [Collection.ids] at h
      simp only [List.map_append, List.map_cons, List.map_nil]
      exact List.Nodup.append hu (List.nodup_singleton _)
        (by simpa [List.disjoint_singleton, User.toDocument] using h)⟩)

/-- The call `userCollection.FindOne(ctx, bson.M{"_id": objId})`: the first
document with that `_id`, if any. -/
def Collection.FindOne (coll : Collection) (objId : ObjectID) : Option Document :=
  coll.docs.find? fun d => d._id = objId

/-- The method `SingleResult.Decode(&user)`: `mongo.ErrNoDocuments` when the
query matched nothing. -/
def SingleResult.Decode (r : Option Document) : Except Err User :=
  match r with
  | none => .error .noDocuments
  | some d => .ok d.Decode

/-- The result `mongo.UpdateResult`. -/
structure UpdateResult where
  MatchedCount : Nat
  ModifiedCount : Nat
deriving DecidableEq

/-- The call `userCollection.UpdateOne(ctx, bson.M{"_id": objId},
bson.M{"$set": update})`. -/
def Collection.UpdateOne (coll : Collection) (objId : ObjectID)
    (update : List (String × String)) : Except Err (UpdateResult × Collection) :=
  match coll.FindOne objId with
  | none => .ok (⟨0, 0⟩, coll)
  | some d =>
    .ok (⟨1, if d.applySet update = d then 0 else 1⟩,
      ⟨setFirst objId update coll.docs, by
        have hkey : ∀ (e : Document) (kv : String × String), (e.setKey kv)._id = e._id := by
          intro e kv; unfold Document.setKey; split_ifs <;> rfl
        have hset : ∀ (kvs : List (String × String)) (e : Document),
            (kvs.foldl Document.setKey e)._id = e._id := by
          intro kvs
          induction kvs with
          | nil => intro e; rfl
          | cons kv rest ih => intro e; exact (ih (e.setKey kv)).trans (hkey e kv)
        have hids : ∀ l : List Document,
            (setFirst objId update l).map (·._id) = l.map (·._id) := by
          intro l
          induction l with
          | nil => rfl
          | cons e es ih =>
            unfold setFirst
            split_ifs
            · simp [Document.applySet, hset]
            · simp [ih]
        rw [hids]; exact coll.unique⟩)

/-- The result `mongo.DeleteResult`. -/
structure DeleteResult where
  DeletedCount : Nat
deriving DecidableEq

/-- The call `userCollection.DeleteOne(ctx, bson.M{"_id": objId})`: removes
the first document with that `_id`, if any. -/
def Collection.DeleteOne (coll : Collection) (objId : ObjectID) :
    Except Err (DeleteResult × Collection) :=
  match coll.FindOne objId with
  | none => .ok (⟨0⟩, coll)
  | some _ =>
    .ok (⟨1⟩, ⟨coll.docs.eraseP fun d => d._id = objId,
      coll.unique.sublist ((List.eraseP_sublist _).map _)⟩)

/-- The call `userCollection.Find(ctx, bson.M{})` with the cursor read to its
end: every document, in the order of the store. -/
def Collection.Find (coll : Collection) : Except Err (List Document) :=
  .ok coll.docs

/-! ## controllers/user_controller.go -/

/-- The text `time.Now().String()`, which is never empty. -/
structure Timestamp where
  text : String
  nonempty : text ≠ ""

/-- What `CreateUser` reads from outside the request and the collection: the
clock and the identifier the driver generates for the new document. -/
structure Env where
  now : Timestamp
  newObjectID : ObjectID

/-- The reply every failing branch sends. -/
def errorReply (status : Nat) (e : Err) : Reply :=
  ⟨status, ⟨status, "error", .error e⟩⟩

/-- The handler `CreateUser` (`POST /user`). -/
def CreateUser (env : Env) (coll : Collection) (body : Body) : Reply × Collection :=
  match BodyParser body User.zero with
  | .error err => (errorReply StatusBadRequest err, coll)
  | .ok user =>
    match validate.Struct user with
    | some validationErr => (errorReply StatusBadRequest validationErr, coll)
    | none =>
      let newUser : User :=
        { Name := user.Name, DOB := user.DOB, Address := user.Address,
          Description := user.Description, CreatedAt := env.now.text }
      match coll.InsertOne env.newObjectID newUser with
      | .error err => (errorReply StatusInternalServerError err, coll)
      | .ok (result, coll1) =>
        (⟨StatusCreated, ⟨StatusCreated, "success", .inserted result⟩⟩, coll1)

/-- The handler `GetAUser` (`GET /user/:userId`). -/
def GetAUser (coll : Collection) (userId : String) : Reply × Collection :=
  let objId := (ObjectIDFromHex userId).1
  match SingleResult.Decode (coll.FindOne objId) with
  | .error err => (errorReply StatusInternalServerError err, coll)
  | .ok user => (⟨StatusOK, ⟨StatusOK, "success", .user user⟩⟩, coll)

/-- The handler `EditAUser` (`PUT /user/:userId`). -/
def EditAUser (coll : Collection) (userId : String) (body : Body) : Reply × Collection :=
  let objId := (ObjectIDFromHex userId).1
  match BodyParser body User.zero with
  | .error err => (errorReply StatusBadRequest err, coll)
  | .ok user =>
    match validate.Struct user with
    | some validationErr => (errorReply StatusBadRequest validationErr, coll)
    | none =>
      let update : List (String × String) :=
        [("name", user.Name), ("dob", user.DOB), ("address", user.Address),
         ("description", user.Description)]
      match coll.UpdateOne objId update with
      | .error err => (errorReply StatusInternalServerError err, coll)
      | .ok (result, coll1) =>
        if result.MatchedCount = 1 then
          match SingleResult.Decode (coll1.FindOne objId) with
          | .error err => (errorReply StatusInternalServerError err, coll1)
          | .ok updatedUser => (⟨StatusOK, ⟨StatusOK, "success", .user updatedUser⟩⟩, coll1)
        else
          (⟨StatusOK, ⟨StatusOK, "success", .user User.zero⟩⟩, coll1)

/-- The handler `DeleteAUser` (`DELETE /user/:userId`). -/
def DeleteAUser (coll : Collection) (userId : String) : Reply × Collection :=
  let objId := (ObjectIDFromHex userId).1
  match coll.DeleteOne objId with
  | .error err => (errorReply StatusInternalServerError err, coll)
  | .ok (result, coll1) =>
    if result.DeletedCount < 1 then
      (⟨StatusNotFound, ⟨StatusNotFound, "error", .text "User with specified ID not found!"⟩⟩, coll1)
    else
      (⟨StatusOK, ⟨StatusOK, "success", .text "User successfully deleted!"⟩⟩, coll1)

/-- The handler `GetAllUsers` (`GET /users`). -/
def GetAllUsers (coll : Collection) : Reply × Collection :=
  match coll.Find with
  | .error err => (errorReply StatusInternalServerError err, coll)
  | .ok users => (⟨StatusOK, ⟨StatusOK, "success", .users users⟩⟩, coll)

/-! ## What the handlers store, and runs of creations -/

/-- The user `CreateUser` stores for a body at a given time. -/
def createdUser (now : Timestamp) (body : Body) : User :=
  { Name := body.field .name, DOB := body.field .dob, Address := body.field .address,
    Description := body.field .description, CreatedAt := now.text }

/-- The user an edit leaves under an identifier: the business fields of the
body and the creation time of the stored document. -/
def editedUser (d : Document) (body : Body) : User :=
  { Name := body.field .name, DOB := body.field .dob, Address := body.field .address,
    Description := body.field .description, CreatedAt := d.createdat }

/-- A run of `CreateUser` calls, each on the collection the one before left:
the replies in order and the final collection. -/
def createAll (coll : Collection) : List (Env × Body) → List Reply × Collection
  | [] => ([], coll)
  | r :: rest =>
    ((CreateUser r.1 coll r.2).1 :: (createAll (CreateUser r.1 coll r.2).2 rest).1,
      (createAll (CreateUser r.1 coll r.2).2 rest).2)

/-- The reply to a successful creation. -/
def createdReply (r : Env × Body) : Reply :=
  ⟨201, ⟨201, "success", .inserted ⟨r.1.newObjectID⟩⟩⟩

/-- The document a successful creation stores. -/
def createdDocument (r : Env × Body) : Document :=
  (createdUser r.1.now r.2).toDocument r.1.newObjectID

/-! ## Sample data: the requests of `main_test.go` -/

/-- The identifier `62a1b2c3d4e5f60718293a4b`. -/
def sampleID : ObjectID := ⟨[98, 161, 178, 195, 212, 229, 246, 7, 24, 41, 58, 75], rfl⟩

/-- The identifier `62a1b2c3d4e5f60718293a4c`. -/
def otherID : ObjectID := ⟨[98, 161, 178, 195, 212, 229, 246, 7, 24, 41, 58, 76], rfl⟩

/-- The valid body of `TestCreateUser`. -/
def createBody : Body :=
  .object [("name", "Spiderman"), ("dob", "69 Dec 2002"),
    ("address", "8194 NowayhomeCity"), ("description", "Go Developer")]

/-- The body of `TestCreateUser` that misspells `address`. -/
def misspelledBody : Body :=
  .object [("name", "Spiderman"), ("dob", "69 Dec 2002"),
    ("adddress", "8194 NowayhomeCity"), ("description", "Go Developer")]

/-- A body that spells the key of the description with the long s U+017F,
which the decoder folds to `s`. -/
def longSBody : Body :=
  .object [("name", "Spiderman"), ("dob", "69 Dec 2002"),
    ("address", "8194 NowayhomeCity"), ("deſcription", "Go Developer")]

/-- A body whose description is overwritten with the empty string by a later
member spelt with the long s. -/
def overwrittenBody : Body :=
  .object [("name", "Spiderman"), ("dob", "69 Dec 2002"),
    ("address", "8194 NowayhomeCity"), ("description", "Go Developer"),
    ("deſcription", "")]

/-- The valid body of `TestEditUser`. -/
def testEditBody : Body :=
  .object [("name", "Spiderman XD"), ("dob", "69 Dec 2002"),
    ("address", "8194 NowayhomeCity"), ("description", "Go Developer")]

/-- The valid body of `TestEditUser`, here also carrying a `createdAt`. -/
def editBody : Body :=
  .object [("name", "Spiderman XD"), ("dob", "69 Dec 2002"),
    ("address", "8194 NowayhomeCity"), ("description", "Go Developer"),
    ("createdAt", "1999-01-01")]

/-- A clock reading and a generated identifier. -/
def sampleEnv : Env := ⟨⟨"2022-06-09 10:00:00 +0000 UTC", by decide⟩, sampleID⟩

def otherEnv : Env := ⟨⟨"2022-06-09 10:00:01 +0000 UTC", by decide⟩, otherID⟩

def sampleDocument : Document :=
  ⟨sampleID, "Spiderman", "69 Dec 2002", "8194 NowayhomeCity", "Go Developer",
    "2022-06-09 10:00:00 +0000 UTC"⟩

def otherDocument : Document :=
  ⟨otherID, "Batman", "1 Jan 1990", "1 Gotham", "Detective", "2022-06-09 10:00:01 +0000 UTC"⟩

/-- A collection of two users. -/
def sampleColl : Collection := ⟨[sampleDocument, otherDocument], by decide⟩

/-- A collection that holds a document under the all-zero identifier. -/
def zeroColl : Collection :=
  ⟨[⟨NilObjectID, "Nobody", "1 Jan 1970", "Nowhere", "kept under the zero identifier",
    "1970-01-01 00:00:00 +0000 UTC"⟩], by decide⟩

/-! ## Lemmas on the request body and the validator -/

theorem User.getField_setField (u : User) (g f : Field) (v : String) :
    (u.setField g v).getField f = if g = f then v else u.getField f := by
  cases g <;> cases f <;> rfl

theorem unmarshalMember_getField (u : User) (m : String × String) (f : Field) :
    (unmarshalMember u m).getField f = if fieldOfKey m.1 = some f then m.2 else u.getField f := by
  unfold unmarshalMember
  cases h : fieldOfKey m.1 with
  | none => simp
  | some g => simp [User.getField_setField]

theorem foldl_unmarshalMember_getField (ms : List (String × String)) (u : User) (f : Field) :
    (ms.foldl unmarshalMember u).getField f =
      match (ms.filter fun m => fieldOfKey m.1 = some f).getLast? with
      | none => u.getField f
      | some m => m.2 := by
  induction ms generalizing u with
  | nil => rfl
  | cons m ms ih =>
    rw [List.foldl_cons, ih, unmarshalMember_getField]
    by_cases hm : fieldOfKey m.1 = some f
    · rw [List.filter_cons_of_pos (by simpa using hm), List.getLast?_cons]
      cases (ms.filter fun m => fieldOfKey m.1 = some f).getLast? <;> simp [hm]
    · rw [List.filter_cons_of_neg (by simpa using hm)]
      simp [hm]

/-- The parser accepts a JSON object and stores in each field the value the
body gives it. -/
theorem BodyParser_object (ms : List (String × String)) :
    ∃ u, BodyParser (.object ms) User.zero = .ok u ∧
      ∀ f, u.getField f = (Body.object ms).field f := by
  refine ⟨ms.foldl unmarshalMember User.zero, rfl, fun f => ?_⟩
  rw [foldl_unmarshalMember_getField]
  simp only [Body.field]
  cases (ms.filter fun m => fieldOfKey m.1 = some f).getLast? with
  | none => cases f <;> rfl
  | some m => rfl

theorem validate_Struct_eq_none (u : User) (h1 : u.Name ≠ "") (h2 : u.DOB ≠ "")
    (h3 : u.Address ≠ "") (h4 : u.Description ≠ "") : validate.Struct u = none := by
  simp [validate.Struct, h1, h2, h3, h4]

theorem validate_Struct_eq_some (u : User)
    (h : u.Name = "" ∨ u.DOB = "" ∨ u.Address = "" ∨ u.Description = "") :
    ∃ e, validate.Struct u = some e := by
  by_cases h1 : u.Name = "" <;> by_cases h2 : u.DOB = "" <;> by_cases h3 : u.Address = "" <;>
    by_cases h4 : u.Description = "" <;> simp [validate.Struct, h1, h2, h3, h4] at h ⊢

/-- A complete body is parsed into a user that passes validation and carries
the values of the body. -/
theorem Body.complete.parsed {body : Body} (h : body.complete) :
    ∃ u, BodyParser body User.zero = .ok u ∧ validate.Struct u = none ∧
      ∀ f, u.getField f = body.field f := by
  cases body with
  | malformed => exact absurd rfl h.1
  | object ms =>
    obtain ⟨u, hu, hf⟩ := BodyParser_object ms
    obtain ⟨h1, h2, h3, h4⟩ := h
    refine ⟨u, hu, validate_Struct_eq_none u ?_ ?_ ?_ ?_, hf⟩
    · rw [← hf] at h1; exact h1
    · rw [← hf] at h2; exact h2
    · rw [← hf] at h3; exact h3
    · rw [← hf] at h4; exact h4

/-- A body that lacks a business field is rejected by the parser or by the
validator. -/
theorem Body.incomplete_rejected {body : Body}
    (h : body.field .name = "" ∨ body.field .dob = "" ∨ body.field .address = "" ∨
      body.field .description = "") :
    (∃ e, BodyParser body User.zero = .error e) ∨
      ∃ u e, BodyParser body User.zero = .ok u ∧ validate.Struct u = some e := by
  cases body with
  | malformed => exact Or.inl ⟨_, rfl⟩
  | object ms =>
    obtain ⟨u, hu, hf⟩ := BodyParser_object ms
    obtain ⟨e, he⟩ := validate_Struct_eq_some u (by
      have h1 := hf .name; have h2 := hf .dob; have h3 := hf .address
      have h4 := hf .description
      simp only [User.getField] at h1 h2 h3 h4
      rw [h1, h2, h3, h4]; exact h)
    exact Or.inr ⟨u, e, hu, he⟩

/-- Keys are matched by folded name: letter case, the long s and the Kelvin
sign make no difference, a misspelt key denotes no field. -/
theorem fieldOfKey_folds :
    fieldOfKey "description" = some .description ∧
      fieldOfKey "DESCRIPTION" = some .description ∧
      fieldOfKey "deſcription" = some .description ∧
      fieldOfKey "addreſſ" = some .address ∧
      fieldOfKey "CreatedAt" = some .createdAt ∧
      fieldOfKey "adddress" = none ∧
      foldName "\u212Aelvin" = foldName "kelvin" := by
  decide

/-- A key spelt with the long s gives the field its value: the body is
complete, and `CreateUser` stores the description. -/
theorem longSBody_accepted :
    longSBody.complete ∧ longSBody.field .description = "Go Developer" ∧
      (CreateUser sampleEnv Collection.empty longSBody).1 =
        ⟨201, ⟨201, "success", .inserted ⟨sampleID⟩⟩⟩ ∧
      (CreateUser sampleEnv Collection.empty longSBody).2.docs = [sampleDocument] := by
  decide

/-- A later member spelt with the long s overwrites the description: the body
lacks the field, and both handlers answer 400 without writing. -/
theorem overwrittenBody_rejected :
    overwrittenBody.field .description = "" ∧ ¬ overwrittenBody.complete ∧
      (CreateUser sampleEnv sampleColl overwrittenBody).1.code = 400 ∧
      (CreateUser sampleEnv sampleColl overwrittenBody).2 = sampleColl ∧
      (EditAUser sampleColl sampleID.Hex overwrittenBody).1.code = 400 ∧
      (EditAUser sampleColl sampleID.Hex overwrittenBody).2 = sampleColl := by
  decide

/-! ## Lemmas on identifiers -/

theorem ObjectID.ext_bytes {a b : ObjectID} (h : a.bytes = b.bytes) : a = b := by
  cases a; cases b; cases h; rfl

/-- On an invalid token `ObjectIDFromHex` returns the all-zero identifier. -/
theorem ObjectIDFromHex_invalid (s : String) (h : (ObjectIDFromHex s).2 = false) :
    (ObjectIDFromHex s).1 = NilObjectID := by
  unfold ObjectIDFromHex at h ⊢
  split_ifs with hl
  · rfl
  · rw [if_neg hl] at h
    cases hd : hexDecode s.data with
    | none => rfl
    | some b => rw [hd] at h; cases h

/-- The all-zero token is valid and denotes the all-zero identifier. -/
theorem ObjectIDFromHex_zero :
    ObjectIDFromHex "000000000000000000000000" = (NilObjectID, true) := by
  decide

theorem fromHexChar_hexDigit (n : Nat) (h : n < 16) : fromHexChar (hexDigit n) = some n := by
  interval_cases n <;> decide

theorem utf8Size_hexDigit (n : Nat) (h : n < 16) : (hexDigit n).utf8Size = 1 := by
  interval_cases n <;> decide

theorem hexDecode_hexEncode (bs : List (Fin 256)) : hexDecode (hexEncode bs) = some bs := by
  induction bs with
  | nil => rfl
  | cons b bs ih =>
    have h1 : b.val / 16 < 16 := by have := b.isLt; omega
    have h2 : b.val % 16 < 16 := by omega
    have hb : (⟨(b.val / 16 * 16 + b.val % 16) % 256, Nat.mod_lt _ (by decide)⟩ : Fin 256) = b := by
      apply Fin.ext
      have := b.isLt
      show (b.val / 16 * 16 + b.val % 16) % 256 = b.val
      omega
    show hexDecode (hexDigit (b.val / 16) :: hexDigit (b.val % 16) :: hexEncode bs) = _
    simp only [hexDecode, fromHexChar_hexDigit _ h1, fromHexChar_hexDigit _ h2, ih, hb]

theorem byteLen_hexEncode (bs : List (Fin 256)) : byteLen (hexEncode bs) = 2 * bs.length := by
  induction bs with
  | nil => rfl
  | cons b bs ih =>
    have h1 : b.val / 16 < 16 := by have := b.isLt; omega
    have h2 : b.val % 16 < 16 := by omega
    show byteLen (hexDigit (b.val / 16) :: hexDigit (b.val % 16) :: hexEncode bs) = _
    simp only [byteLen, utf8Size_hexDigit _ h1, utf8Size_hexDigit _ h2, ih, List.length_cons]
    omega

/-- Round trip: the token `Hex` prints is valid and denotes the identifier. -/
theorem ObjectIDFromHex_Hex (id : ObjectID) : ObjectIDFromHex id.Hex = (id, true) := by
  have hd : id.Hex.data = hexEncode id.bytes := rfl
  unfold ObjectIDFromHex
  rw [hd, byteLen_hexEncode, id.size, hexDecode_hexEncode]
  simp only [ne_eq, not_true_eq_false, if_false, Nat.reduceMul]
  refine Prod.ext (ObjectID.ext_bytes ?_) rfl
  exact List.take_left' id.size

theorem utf8Size_of_fromHexChar {c : Char} (h : (fromHexChar c).isSome) : c.utf8Size = 1 := by
  have hlt : c.toNat ≤ 127 := by
    unfold fromHexChar at h
    by_contra hc
    simp only [] at h
    split_ifs at h <;> first | omega | simp at h
  have hle : c.val ≤ UInt32.ofNatCore 127 (by decide) := by
    show c.val.toNat ≤ 127
    exact hlt
  unfold Char.utf8Size
  exact if_pos hle

theorem hexDecode_isSome_iff : ∀ cs : List Char,
    (hexDecode cs).isSome ↔ cs.length % 2 = 0 ∧ ∀ c ∈ cs, (fromHexChar c).isSome
  | [] => by simp [hexDecode]
  | [_] => by simp [hexDecode]
  | p :: q :: rest => by
    have ih := hexDecode_isSome_iff rest
    have hlen : (p :: q :: rest).length % 2 = rest.length % 2 := by
      simp only [List.length_cons]; omega
    rw [hlen]
    unfold hexDecode
    cases hp : fromHexChar p <;> cases hq : fromHexChar q <;> cases hr : hexDecode rest <;>
      simp_all

theorem byteLen_of_hex (cs : List Char) (h : ∀ c ∈ cs, (fromHexChar c).isSome) :
    byteLen cs = cs.length := by
  induction cs with
  | nil => rfl
  | cons c cs ih =>
    rw [byteLen, utf8Size_of_fromHexChar (h c (List.mem_cons_self _ _)),
      ih fun x hx => h x (List.mem_cons_of_mem _ hx), List.length_cons]
    omega

/-- A token is a valid identifier exactly when it is 24 hexadecimal digits. -/
theorem ObjectIDFromHex_valid_iff (s : String) :
    (ObjectIDFromHex s).2 = true ↔
      s.data.length = 24 ∧ ∀ c ∈ s.data, (fromHexChar c).isSome := by
  unfold ObjectIDFromHex
  constructor
  · intro h
    by_cases hl : byteLen s.data ≠ 24
    · rw [if_pos hl] at h; cases h
    · rw [if_neg hl] at h
      have hl24 : byteLen s.data = 24 := not_not.1 hl
      cases hd : hexDecode s.data with
      | none => rw [hd] at h; cases h
      | some b =>
        have hs := (hexDecode_isSome_iff s.data).1 (by rw [hd]; rfl)
        exact ⟨by rw [← byteLen_of_hex _ hs.2]; exact hl24, hs.2⟩
  · rintro ⟨hlen, hhex⟩
    have hl24 : byteLen s.data = 24 := by rw [byteLen_of_hex _ hhex]; exact hlen
    rw [if_neg (not_not.2 hl24)]
    have hs := (hexDecode_isSome_iff s.data).2 ⟨by rw [hlen], hhex⟩
    cases hd : hexDecode s.data with
    | none => rw [hd] at hs; cases hs
    | some b => rfl

/-! ## Lemmas on the collection -/

theorem Document.setKey_id (d : Document) (kv : String × String) : (d.setKey kv)._id = d._id := by
  unfold Document.setKey
  split_ifs <;> rfl

theorem Document.applySet_id (d : Document) (update : List (String × String)) :
    (d.applySet update)._id = d._id := by
  unfold Document.applySet
  induction update generalizing d with
  | nil => rfl
  | cons kv rest ih => rw [List.foldl_cons, ih, Document.setKey_id]

theorem setFirst_ids (id : ObjectID) (update : List (String × String)) (docs : List Document) :
    (setFirst id update docs).map (·._id) = docs.map (·._id) := by
  induction docs with
  | nil => rfl
  | cons d ds ih =>
    unfold setFirst
    split_ifs
    · simp [Document.applySet_id]
    · simp [ih]

theorem Collection.FindOne_eq_none {coll : Collection} {id : ObjectID} :
    coll.FindOne id = none ↔ id ∉ coll.ids := by
  simp only [Collection.FindOne, Collection.ids, List.find?_eq_none, decide_eq_true_eq,
    List.mem_map, not_exists, not_and]

theorem find?_id_of_mem {docs : List Document} (hu : (docs.map (·._id)).Nodup) {d : Document}
    (hd : d ∈ docs) : docs.find? (fun e => e._id = d._id) = some d := by
  induction docs with
  | nil => cases hd
  | cons e es ih =>
    rw [List.map_cons, List.nodup_cons] at hu
    by_cases he : e._id = d._id
    · rw [List.find?_cons_of_pos _ (by simpa using he)]
      rcases List.mem_cons.1 hd with h | h
      · rw [h]
      · exact absurd (he ▸ List.mem_map_of_mem (·._id) h) hu.1
    · rw [List.find?_cons_of_neg _ (by simpa using he)]
      rcases List.mem_cons.1 hd with h | h
      · exact absurd (h ▸ rfl) he
      · exact ih hu.2 h

/-- A stored document is the one `FindOne` returns for its identifier. -/
theorem Collection.FindOne_of_mem (coll : Collection) {d : Document} (hd : d ∈ coll.docs) :
    coll.FindOne d._id = some d :=
  find?_id_of_mem coll.unique hd

theorem Document.Decode_toDocument (u : User) (id : ObjectID) : (u.toDocument id).Decode = u := rfl

/-- Inserting under a fresh identifier appends the document. -/
theorem Collection.InsertOne_fresh (coll : Collection) {id : ObjectID} (u : User)
    (h : id ∉ coll.ids) :
    ∃ coll1, coll.InsertOne id u = .ok (⟨id⟩, coll1) ∧
      coll1.docs = coll.docs ++ [u.toDocument id] := by
  unfold Collection.InsertOne
  rw [dif_neg h]
  exact ⟨_, rfl, rfl⟩

/-- Inserting under an identifier already present is refused. -/
theorem Collection.InsertOne_duplicate (coll : Collection) {id : ObjectID} (u : User)
    (h : id ∈ coll.ids) : coll.InsertOne id u = .error .duplicateKey := by
  unfold Collection.InsertOne
  rw [dif_pos h]

theorem find?_setFirst (id : ObjectID) (update : List (String × String)) (docs : List Document) :
    (setFirst id update docs).find? (fun e => e._id = id) =
      (docs.find? fun e => e._id = id).map (·.applySet update) := by
  induction docs with
  | nil => rfl
  | cons d ds ih =>
    unfold setFirst
    by_cases hd : d._id = id
    · rw [if_pos hd, List.find?_cons_of_pos _ (by simp [Document.applySet_id, hd]),
        List.find?_cons_of_pos _ (by simp [hd])]
      rfl
    · rw [if_neg hd, List.find?_cons_of_neg _ (by simpa using hd),
        List.find?_cons_of_neg _ (by simpa using hd), ih]

theorem setFirst_eq_map (id : ObjectID) (update : List (String × String))
    (docs : List Document) (hu : (docs.map (·._id)).Nodup) :
    setFirst id update docs = docs.map fun e => if e._id = id then e.applySet update else e := by
  induction docs with
  | nil => rfl
  | cons d ds ih =>
    rw [List.map_cons, List.nodup_cons] at hu
    unfold setFirst
    by_cases hd : d._id = id
    · rw [if_pos hd, List.map_cons, if_pos hd]
      congr 1
      symm
      calc ds.map (fun e => if e._id = id then e.applySet update else e)
          = ds.map fun e => e := List.map_congr_left fun e he => by
            have hne : e._id ≠ id := fun h =>
              hu.1 (hd.trans h.symm ▸ List.mem_map_of_mem (·._id) he)
            rw [if_neg hne]
        _ = ds := List.map_id _
    · rw [if_neg hd, List.map_cons, if_neg hd, ih hu.2]

theorem eraseP_eq_filter (id : ObjectID) (docs : List Document)
    (hu : (docs.map (·._id)).Nodup) :
    docs.eraseP (fun e => e._id = id) = docs.filter fun e => e._id ≠ id := by
  induction docs with
  | nil => rfl
  | cons d ds ih =>
    rw [List.map_cons, List.nodup_cons] at hu
    by_cases hd : d._id = id
    · rw [List.eraseP_cons_of_pos (by simpa using hd),
        List.filter_cons_of_neg (by simpa using hd)]
      symm
      rw [List.filter_eq_self]
      intro e he
      have hne : e._id ≠ id := fun h =>
        hu.1 (hd.trans h.symm ▸ List.mem_map_of_mem (·._id) he)
      simpa using hne
    · rw [List.eraseP_cons_of_neg (by simpa using hd),
        List.filter_cons_of_pos (by simpa using hd), ih hu.2]

/-- The update the handler `EditAUser` sends rewrites the four business
fields and nothing else. -/
theorem Document.applySet_business (d : Document) (a b c e : String) :
    d.applySet [("name", a), ("dob", b), ("address", c), ("description", e)] =
      { d with name := a, dob := b, address := c, description := e } := by
  simp [Document.applySet, Document.setKey]

/-! ## The handlers by the identifier the token denotes -/

theorem GetAUser_of_mem (coll : Collection) (userId : String) {d : Document}
    (hd : d ∈ coll.docs) (h : (ObjectIDFromHex userId).1 = d._id) :
    GetAUser coll userId = (⟨200, ⟨200, "success", .user d.Decode⟩⟩, coll) := by
  simp only [GetAUser, h, coll.FindOne_of_mem hd, SingleResult.Decode]
  rfl

theorem incomplete_CreateUser (env : Env) (coll : Collection) {body : Body}
    (h : body.field .name = "" ∨ body.field .dob = "" ∨ body.field .address = "" ∨
      body.field .description = "") :
    ∃ e, CreateUser env coll body = (⟨400, ⟨400, "error", .error e⟩⟩, coll) := by
  rcases Body.incomplete_rejected h with ⟨e, he⟩ | ⟨u, e, hu, he⟩
  · exact ⟨e, by simp only [CreateUser, he]; rfl⟩
  · exact ⟨e, by simp only [CreateUser, hu, he]; rfl⟩

theorem incomplete_EditAUser (coll : Collection) (userId : String) {body : Body}
    (h : body.field .name = "" ∨ body.field .dob = "" ∨ body.field .address = "" ∨
      body.field .description = "") :
    ∃ e, EditAUser coll userId body = (⟨400, ⟨400, "error", .error e⟩⟩, coll) := by
  rcases Body.incomplete_rejected h with ⟨e, he⟩ | ⟨u, e, hu, he⟩
  · exact ⟨e, by simp only [EditAUser, he]; rfl⟩
  · exact ⟨e, by simp only [EditAUser, hu, he]; rfl⟩

theorem CreateUser_fresh (env : Env) (coll : Collection) {body : Body} (hb : body.complete)
    (hf : env.newObjectID ∉ coll.ids) :
    ∃ coll1, CreateUser env coll body =
        (⟨201, ⟨201, "success", .inserted ⟨env.newObjectID⟩⟩⟩, coll1) ∧
      coll1.docs = coll.docs ++ [(createdUser env.now body).toDocument env.newObjectID] := by
  obtain ⟨u, hu, hv, hfld⟩ := hb.parsed
  have h1 := hfld .name; have h2 := hfld .dob; have h3 := hfld .address
  have h4 := hfld .description
  simp only [User.getField] at h1 h2 h3 h4
  obtain ⟨coll1, hi, hdocs⟩ := coll.InsertOne_fresh (createdUser env.now body) hf
  refine ⟨coll1, ?_, hdocs⟩
  simp only [createdUser] at hi
  simp only [CreateUser, hu, hv, h1, h2, h3, h4, hi]
  rfl

theorem CreateUser_duplicate (env : Env) (coll : Collection) (body : Body)
    (hf : env.newObjectID ∈ coll.ids) : (CreateUser env coll body).1.code ≠ 201 := by
  unfold CreateUser
  split
  · simp [errorReply, StatusBadRequest]
  · split
    · simp [errorReply, StatusBadRequest]
    · simp [Collection.InsertOne_duplicate _ _ hf, errorReply, StatusInternalServerError]

theorem EditAUser_of_not_mem (coll : Collection) (userId : String) {body : Body}
    (hb : body.complete) (h : (ObjectIDFromHex userId).1 ∉ coll.ids) :
    EditAUser coll userId body = (⟨200, ⟨200, "success", .user User.zero⟩⟩, coll) := by
  obtain ⟨u, hu, hv, -⟩ := hb.parsed
  simp only [EditAUser, hu, hv, Collection.UpdateOne, Collection.FindOne_eq_none.2 h]
  rfl

theorem EditAUser_of_mem (coll : Collection) (userId : String) {body : Body} {d : Document}
    (hb : body.complete) (hd : d ∈ coll.docs) (h : (ObjectIDFromHex userId).1 = d._id) :
    ∃ coll1, EditAUser coll userId body =
        (⟨200, ⟨200, "success", .user (editedUser d body)⟩⟩, coll1) ∧
      coll1.docs = coll.docs.map fun e =>
        if e._id = d._id then (editedUser d body).toDocument d._id else e := by
  obtain ⟨u, hu, hv, hfld⟩ := hb.parsed
  have h1 := hfld .name; have h2 := hfld .dob; have h3 := hfld .address
  have h4 := hfld .description
  simp only [User.getField] at h1 h2 h3 h4
  have hfind := coll.FindOne_of_mem hd
  have hfind1 : coll.docs.find? (fun e => decide (e._id = d._id)) = some d := hfind
  have hset : d.applySet [("name", body.field .name), ("dob", body.field .dob),
      ("address", body.field .address), ("description", body.field .description)] =
      (editedUser d body).toDocument d._id := by
    rw [Document.applySet_business]; rfl
  refine ⟨⟨setFirst d._id [("name", body.field .name), ("dob", body.field .dob),
      ("address", body.field .address), ("description", body.field .description)] coll.docs,
      by rw [setFirst_ids]; exact coll.unique⟩, ?_, ?_⟩
  · simp only [EditAUser, hu, hv, h, h1, h2, h3, h4, Collection.UpdateOne,
      Collection.FindOne, find?_setFirst, hfind1, if_true, Option.map_some', SingleResult.Decode,
      hset, Document.Decode_toDocument]
    rfl
  · show setFirst _ _ coll.docs = _
    rw [setFirst_eq_map _ _ _ coll.unique]
    refine List.map_congr_left fun e he => ?_
    by_cases hid : e._id = d._id
    · have hed : e = d := by
        have := coll.FindOne_of_mem he
        rw [hid, hfind] at this
        exact (Option.some.inj this).symm
      rw [if_pos hid, if_pos hid, hed, hset]
    · rw [if_neg hid, if_neg hid]

theorem DeleteAUser_of_not_mem (coll : Collection) (userId : String)
    (h : (ObjectIDFromHex userId).1 ∉ coll.ids) :
    DeleteAUser coll userId =
      (⟨404, ⟨404, "error", .text "User with specified ID not found!"⟩⟩, coll) := by
  simp only [DeleteAUser, Collection.DeleteOne, Collection.FindOne_eq_none.2 h]
  rfl

theorem DeleteAUser_of_mem (coll : Collection) (userId : String) {d : Document}
    (hd : d ∈ coll.docs) (h : (ObjectIDFromHex userId).1 = d._id) :
    ∃ coll1, DeleteAUser coll userId =
        (⟨200, ⟨200, "success", .text "User successfully deleted!"⟩⟩, coll1) ∧
      coll1.docs = coll.docs.filter fun e => e._id ≠ d._id := by
  refine ⟨⟨coll.docs.eraseP fun e => e._id = d._id,
    coll.unique.sublist ((List.eraseP_sublist _).map _)⟩, ?_, eraseP_eq_filter _ _ coll.unique⟩
  simp only [DeleteAUser, h, Collection.DeleteOne, coll.FindOne_of_mem hd]
  rfl

/-! ## Runs of creations -/

theorem createAll_fresh (reqs : List (Env × Body)) (coll : Collection)
    (hb : ∀ r ∈ reqs, r.2.complete) (hn : (reqs.map (·.1.newObjectID)).Nodup)
    (hf : ∀ r ∈ reqs, r.1.newObjectID ∉ coll.ids) :
    ∃ coll1, createAll coll reqs = (reqs.map createdReply, coll1) ∧
      coll1.docs = coll.docs ++ reqs.map createdDocument := by
  induction reqs generalizing coll with
  | nil => exact ⟨coll, rfl, by simp⟩
  | cons r rest ih =>
    rw [List.map_cons, List.nodup_cons] at hn
    obtain ⟨coll1, hc, hdocs⟩ :=
      CreateUser_fresh r.1 coll (hb r (List.mem_cons_self _ _)) (hf r (List.mem_cons_self _ _))
    have hf1 : ∀ q ∈ rest, q.1.newObjectID ∉ coll1.ids := by
      intro q hq hmem
      simp only [Collection.ids, hdocs, List.map_append, List.mem_append, List.map_cons,
        List.map_nil, List.mem_singleton] at hmem
      rcases hmem with hmem | hmem
      · exact hf q (List.mem_cons_of_mem _ hq) hmem
      · exact hn.1 (by
          have : q.1.newObjectID = r.1.newObjectID := hmem
          rw [← this]; exact List.mem_map_of_mem (·.1.newObjectID) hq)
    obtain ⟨coll2, hc2, hdocs2⟩ :=
      ih coll1 (fun q hq => hb q (List.mem_cons_of_mem _ hq)) hn.2 hf1
    refine ⟨coll2, ?_, ?_⟩
    · simp only [createAll, hc, hc2, List.map_cons]
      rfl
    · rw [hdocs2, hdocs, List.append_assoc]
      rfl

theorem createAll_distinct (reqs : List (Env × Body)) (coll : Collection)
    (hb : ∀ r ∈ reqs, r.2.complete)
    (hr : ∀ rep ∈ (createAll coll reqs).1, rep.code = 201) :
    (reqs.map (·.1.newObjectID)).Nodup ∧ ∀ r ∈ reqs, r.1.newObjectID ∉ coll.ids := by
  induction reqs generalizing coll with
  | nil => exact ⟨List.nodup_nil, fun _ h => by cases h⟩
  | cons r rest ih =>
    have hfr : r.1.newObjectID ∉ coll.ids := fun hmem =>
      CreateUser_duplicate r.1 coll r.2 hmem (hr _ (List.mem_cons_self _ _))
    obtain ⟨coll1, hc, hdocs⟩ := CreateUser_fresh r.1 coll (hb r (List.mem_cons_self _ _)) hfr
    have hids : coll1.ids = coll.ids ++ [r.1.newObjectID] := by
      simp only [Collection.ids, hdocs, List.map_append, List.map_cons, List.map_nil]
      rfl
    obtain ⟨hn, hf⟩ := ih coll1 (fun q hq => hb q (List.mem_cons_of_mem _ hq)) (by
      intro rep hrep
      apply hr
      simp only [createAll, hc]
      exact List.mem_cons_of_mem _ hrep)
    refine ⟨?_, ?_⟩
    · rw [List.map_cons, List.nodup_cons]
      refine ⟨fun hmem => ?_, hn⟩
      obtain ⟨q, hq, hqe⟩ := List.mem_map.1 hmem
      exact hf q hq (by rw [hids, hqe]; simp)
    · intro q hq
      rcases List.mem_cons.1 hq with h | h
      · rw [h]; exact hfr
      · exact fun hmem => hf q h (by rw [hids]; exact List.mem_append_left _ hmem)

/-! ## The claims -/

/-- C1: when a request body lacks one of the four business fields (the field
is absent or the empty string), `CreateUser` and `EditAUser` both answer 400
with message `"error"` and leave the collection as it was. -/
theorem C1_missing_field_rejected (env : Env) (coll : Collection) (userId : String)
    (body : Body)
    (h : body.field .name = "" ∨ body.field .dob = "" ∨ body.field .address = "" ∨
      body.field .description = "") :
    (∃ e, CreateUser env coll body = (⟨400, ⟨400, "error", .error e⟩⟩, coll)) ∧
      ∃ e, EditAUser coll userId body = (⟨400, ⟨400, "error", .error e⟩⟩, coll) :=
  ⟨incomplete_CreateUser env coll h, incomplete_EditAUser coll userId h⟩

/-- C1 at the body of `TestCreateUser` that misspells `address`. -/
theorem C1_missing_field_rejected_witness :
    misspelledBody.field .address = "" ∧
      (∃ e, CreateUser sampleEnv sampleColl misspelledBody =
        (⟨400, ⟨400, "error", .error e⟩⟩, sampleColl)) ∧
      ∃ e, EditAUser sampleColl sampleID.Hex misspelledBody =
        (⟨400, ⟨400, "error", .error e⟩⟩, sampleColl) :=
  ⟨by decide,
    C1_missing_field_rejected sampleEnv sampleColl sampleID.Hex misspelledBody
      (Or.inr (Or.inr (Or.inl (by decide))))⟩

/-- C2: for every collection and every body with the four business fields
non-empty, `CreateUser` answers 201 `"success"` with the generated identifier
whenever that identifier is not yet in the collection, and it answers 201 only
then; `GetAUser` with the returned identifier on the resulting collection
answers 200 with the submitted name, dob, address and description and with
`CreatedAt` the non-empty clock text of the creation, whatever `createdAt` the
body carried. -/
theorem C2_create_then_fetch (env : Env) (coll : Collection) (body : Body)
    (hb : body.complete) :
    (env.newObjectID ∉ coll.ids →
      ∃ coll1, CreateUser env coll body =
          (⟨201, ⟨201, "success", .inserted ⟨env.newObjectID⟩⟩⟩, coll1) ∧
        GetAUser coll1 env.newObjectID.Hex =
          (⟨200, ⟨200, "success", .user ⟨body.field .name, body.field .dob,
            body.field .address, body.field .description, env.now.text⟩⟩⟩, coll1) ∧
        env.now.text ≠ "") ∧
      ((CreateUser env coll body).1.code = 201 → env.newObjectID ∉ coll.ids) := by
  refine ⟨fun hf => ?_, fun hc hmem => CreateUser_duplicate env coll body hmem hc⟩
  obtain ⟨coll1, hcreate, hdocs⟩ := CreateUser_fresh env coll hb hf
  refine ⟨coll1, hcreate, ?_, env.now.nonempty⟩
  have hmem : (createdUser env.now body).toDocument env.newObjectID ∈ coll1.docs := by
    rw [hdocs]; simp
  have := GetAUser_of_mem coll1 env.newObjectID.Hex hmem (by rw [ObjectIDFromHex_Hex]; rfl)
  rw [this]
  rfl

/-- C2 at the valid body of `TestCreateUser` extended with a `createdAt`, on a
collection that holds another user. -/
theorem C2_create_then_fetch_witness :
    editBody.complete ∧ sampleID ∉ (Collection.mk [otherDocument] (by decide)).ids ∧
      ∃ coll1, CreateUser sampleEnv ⟨[otherDocument], by decide⟩ editBody =
          (⟨201, ⟨201, "success", .inserted ⟨sampleID⟩⟩⟩, coll1) ∧
        GetAUser coll1 sampleID.Hex =
          (⟨200, ⟨200, "success", .user ⟨"Spiderman XD", "69 Dec 2002", "8194 NowayhomeCity",
            "Go Developer", "2022-06-09 10:00:00 +0000 UTC"⟩⟩⟩, coll1) ∧
        sampleEnv.now.text ≠ "" :=
  ⟨by decide, by decide,
    (C2_create_then_fetch sampleEnv ⟨[otherDocument], by decide⟩ editBody (by decide)).1
      (by decide)⟩

/-- C3: for every collection with a document under an identifier and every
body with the four business fields non-empty (with or without a `createdAt`),
`EditAUser` on that identifier answers 200 `"success"` with the record read
back; in the resulting collection that record has the submitted name, dob,
address and description and the `CreatedAt` it had, and every other document
is unchanged. -/
theorem C3_edit_existing (coll : Collection) (d : Document) (body : Body)
    (hd : d ∈ coll.docs) (hb : body.complete) :
    ∃ coll1, EditAUser coll d._id.Hex body =
        (⟨200, ⟨200, "success", .user ⟨body.field .name, body.field .dob,
          body.field .address, body.field .description, d.createdat⟩⟩⟩, coll1) ∧
      coll1.FindOne d._id = some ⟨d._id, body.field .name, body.field .dob,
        body.field .address, body.field .description, d.createdat⟩ ∧
      coll1.docs = coll.docs.map fun e =>
        if e._id = d._id then ⟨d._id, body.field .name, body.field .dob,
          body.field .address, body.field .description, d.createdat⟩ else e := by
  obtain ⟨coll1, hedit, hdocs⟩ :=
    EditAUser_of_mem coll d._id.Hex hb hd (by rw [ObjectIDFromHex_Hex])
  refine ⟨coll1, hedit, ?_, hdocs⟩
  have hmem : (editedUser d body).toDocument d._id ∈ coll1.docs := by
    rw [hdocs]
    exact List.mem_map.2 ⟨d, hd, by rw [if_pos rfl]⟩
  exact coll1.FindOne_of_mem hmem

/-- C3 at the body of `TestEditUser` carrying a `createdAt`, on a collection
of two users. -/
theorem C3_edit_existing_witness :
    sampleDocument ∈ sampleColl.docs ∧ editBody.complete ∧
      ∃ coll1, EditAUser sampleColl sampleID.Hex editBody =
          (⟨200, ⟨200, "success", .user ⟨"Spiderman XD", "69 Dec 2002", "8194 NowayhomeCity",
            "Go Developer", "2022-06-09 10:00:00 +0000 UTC"⟩⟩⟩, coll1) ∧
        coll1.FindOne sampleID = some ⟨sampleID, "Spiderman XD", "69 Dec 2002",
          "8194 NowayhomeCity", "Go Developer", "2022-06-09 10:00:00 +0000 UTC"⟩ ∧
        coll1.docs = [⟨sampleID, "Spiderman XD", "69 Dec 2002", "8194 NowayhomeCity",
          "Go Developer", "2022-06-09 10:00:00 +0000 UTC"⟩, otherDocument] :=
  ⟨by decide, by decide,
    C3_edit_existing sampleColl sampleDocument editBody (by decide) (by decide)⟩

/-- C4: for every collection with a document under an identifier, a first
`DeleteAUser` on it answers 200 `"success"` and removes exactly that document,
and a second `DeleteAUser` on it answers 404 `"error"` and changes nothing. -/
theorem C4_delete_twice (coll : Collection) (d : Document) (hd : d ∈ coll.docs) :
    ∃ coll1, DeleteAUser coll d._id.Hex =
        (⟨200, ⟨200, "success", .text "User successfully deleted!"⟩⟩, coll1) ∧
      coll1.docs = (coll.docs.filter fun e => e._id ≠ d._id) ∧
      (∀ e, e ∈ coll1.docs ↔ e ∈ coll.docs ∧ e ≠ d) ∧
      DeleteAUser coll1 d._id.Hex =
        (⟨404, ⟨404, "error", .text "User with specified ID not found!"⟩⟩, coll1) := by
  obtain ⟨coll1, hdel, hdocs⟩ :=
    DeleteAUser_of_mem coll d._id.Hex hd (by rw [ObjectIDFromHex_Hex])
  refine ⟨coll1, hdel, hdocs, fun e => ?_, ?_⟩
  · rw [hdocs, List.mem_filter]
    refine and_congr_right fun he => ?_
    simp only [ne_eq, decide_not, Bool.not_eq_eq_eq_not, Bool.not_true, decide_eq_false_iff_not]
    refine ⟨fun h heq => h (heq ▸ rfl), fun h hid => h ?_⟩
    have h1 := coll.FindOne_of_mem he
    rw [hid, coll.FindOne_of_mem hd] at h1
    exact (Option.some.inj h1).symm
  · refine DeleteAUser_of_not_mem coll1 _ ?_
    rw [ObjectIDFromHex_Hex]
    simp only [Collection.ids, hdocs, List.mem_map, List.mem_filter, not_exists, not_and]
    intro e he heq
    simp [heq] at he

/-- C4 on a collection of two users. -/
theorem C4_delete_twice_witness :
    sampleDocument ∈ sampleColl.docs ∧
      ∃ coll1, DeleteAUser sampleColl sampleID.Hex =
          (⟨200, ⟨200, "success", .text "User successfully deleted!"⟩⟩, coll1) ∧
        coll1.docs = [otherDocument] ∧
        (∀ e, e ∈ coll1.docs ↔ e ∈ sampleColl.docs ∧ e ≠ sampleDocument) ∧
        DeleteAUser coll1 sampleID.Hex =
          (⟨404, ⟨404, "error", .text "User with specified ID not found!"⟩⟩, coll1) :=
  ⟨by decide, C4_delete_twice sampleColl sampleDocument (by decide)⟩

/-- C6: the request of `TestEditUser` with the token `3bfdjn3f`, for which the
test expects 404: the token is not a valid identifier, the body is complete,
and `EditAUser` answers 200 `"success"` with an empty record. -/
theorem C6_edit_invalid_token_replies_200 :
    (ObjectIDFromHex "3bfdjn3f").2 = false ∧ testEditBody.complete ∧
      EditAUser Collection.empty "3bfdjn3f" testEditBody =
        (⟨200, ⟨200, "success", .user ⟨"", "", "", "", ""⟩⟩⟩, Collection.empty) ∧
      (EditAUser Collection.empty "3bfdjn3f" testEditBody).1.code ≠ 404 := by
  decide

/-- C7: for every collection, every identifier no document has and every body
with the four business fields non-empty, `EditAUser` answers 200 `"success"`
with a record of five empty strings and leaves the collection unchanged. -/
theorem C7_edit_unknown_reports_success (coll : Collection) (id : ObjectID) (body : Body)
    (hb : body.complete) (hid : id ∉ coll.ids) :
    EditAUser coll id.Hex body =
      (⟨200, ⟨200, "success", .user ⟨"", "", "", "", ""⟩⟩⟩, coll) :=
  EditAUser_of_not_mem coll id.Hex hb (by rw [ObjectIDFromHex_Hex]; exact hid)

/-- C7 at an identifier absent from a collection of one user. -/
theorem C7_edit_unknown_reports_success_witness :
    createBody.complete ∧ sampleID ∉ (Collection.mk [otherDocument] (by decide)).ids ∧
      EditAUser ⟨[otherDocument], by decide⟩ sampleID.Hex createBody =
        (⟨200, ⟨200, "success", .user ⟨"", "", "", "", ""⟩⟩⟩, ⟨[otherDocument], by decide⟩) :=
  ⟨by decide, by decide,
    C7_edit_unknown_reports_success ⟨[otherDocument], by decide⟩ sampleID createBody
      (by decide) (by decide)⟩

/-- C8: from the empty collection, for every run of `CreateUser` calls whose
bodies have the four business fields non-empty: when the generated identifiers
are pairwise distinct every call answers 201 with its identifier, and
`GetAllUsers` then answers 200 with exactly one document per call, under the
identifier that call returned and with the business fields of its body, in some
order, and leaves the collection unchanged; and the calls all answer 201 only
when the generated identifiers are pairwise distinct. -/
theorem C8_list_after_creates (reqs : List (Env × Body)) (hb : ∀ r ∈ reqs, r.2.complete) :
    ((reqs.map (·.1.newObjectID)).Nodup →
      ∃ users,
        (createAll Collection.empty reqs).1 = reqs.map createdReply ∧
        GetAllUsers (createAll Collection.empty reqs).2 =
          (⟨200, ⟨200, "success", .users users⟩⟩, (createAll Collection.empty reqs).2) ∧
        users.Perm (reqs.map createdDocument) ∧
        users.length = reqs.length ∧
        (users.map (·._id)).Nodup) ∧
      ((∀ rep ∈ (createAll Collection.empty reqs).1, rep.code = 201) →
        (reqs.map (·.1.newObjectID)).Nodup) := by
  refine ⟨fun hn => ?_, fun hr => (createAll_distinct reqs Collection.empty hb hr).1⟩
  obtain ⟨coll1, hrun, hdocs⟩ :=
    createAll_fresh reqs Collection.empty hb hn (fun _ _ h => by cases h)
  refine ⟨coll1.docs, by rw [hrun], by rw [hrun]; rfl, ?_, ?_, coll1.unique⟩
  · rw [hdocs]; exact List.Perm.refl _
  · rw [hdocs]; simp [Collection.empty]

/-- C8 at a run of two creations. -/
theorem C8_list_after_creates_witness :
    (∀ r ∈ [(sampleEnv, createBody), (otherEnv, editBody)], r.2.complete) ∧
      ([(sampleEnv, createBody), (otherEnv, editBody)].map (·.1.newObjectID)).Nodup ∧
      ∃ users,
        (createAll Collection.empty [(sampleEnv, createBody), (otherEnv, editBody)]).1 =
          [⟨201, ⟨201, "success", .inserted ⟨sampleID⟩⟩⟩,
            ⟨201, ⟨201, "success", .inserted ⟨otherID⟩⟩⟩] ∧
        GetAllUsers (createAll Collection.empty [(sampleEnv, createBody), (otherEnv, editBody)]).2 =
          (⟨200, ⟨200, "success", .users users⟩⟩,
            (createAll Collection.empty [(sampleEnv, createBody), (otherEnv, editBody)]).2) ∧
        users.Perm [sampleDocument,
          ⟨otherID, "Spiderman XD", "69 Dec 2002", "8194 NowayhomeCity", "Go Developer",
            "2022-06-09 10:00:01 +0000 UTC"⟩] ∧
        users.length = 2 ∧
        (users.map (·._id)).Nodup :=
  ⟨by decide, by decide,
    (C8_list_after_creates [(sampleEnv, createBody), (otherEnv, editBody)] (by decide)).1
      (by decide)⟩

/-- C10: for every collection, every body and every token that is not a valid
identifier, `GetAUser`, `EditAUser` and `DeleteAUser` give the reply and the
resulting collection of the same call with the token
`000000000000000000000000`, and so the same as with any other invalid token. -/
theorem C10_invalid_token_is_zero_identifier (coll : Collection) (body : Body)
    (userId : String) (hv : (ObjectIDFromHex userId).2 = false) :
    (GetAUser coll userId = GetAUser coll "000000000000000000000000" ∧
      EditAUser coll userId body = EditAUser coll "000000000000000000000000" body ∧
      DeleteAUser coll userId = DeleteAUser coll "000000000000000000000000") ∧
      ∀ other : String, (ObjectIDFromHex other).2 = false →
        GetAUser coll userId = GetAUser coll other ∧
        EditAUser coll userId body = EditAUser coll other body ∧
        DeleteAUser coll userId = DeleteAUser coll other := by
  have h0 : (ObjectIDFromHex "000000000000000000000000").1 = NilObjectID := by
    rw [ObjectIDFromHex_zero]
  have h1 := ObjectIDFromHex_invalid userId hv
  refine ⟨⟨?_, ?_, ?_⟩, fun other ho => ⟨?_, ?_, ?_⟩⟩
  · simp only [GetAUser, h0, h1]
  · simp only [EditAUser, h0, h1]
  · simp only [DeleteAUser, h0, h1]
  · simp only [GetAUser, ObjectIDFromHex_invalid other ho, h1]
  · simp only [EditAUser, ObjectIDFromHex_invalid other ho, h1]
  · simp only [DeleteAUser, ObjectIDFromHex_invalid other ho, h1]

/-- C10 at the invalid tokens of the tests, on the collection that holds a
document under the all-zero identifier. -/
theorem C10_invalid_token_is_zero_identifier_witness :
    (ObjectIDFromHex "ksdflj45ljk").2 = false ∧
      (GetAUser zeroColl "ksdflj45ljk" = GetAUser zeroColl "000000000000000000000000" ∧
        EditAUser zeroColl "ksdflj45ljk" editBody =
          EditAUser zeroColl "000000000000000000000000" editBody ∧
        DeleteAUser zeroColl "ksdflj45ljk" =
          DeleteAUser zeroColl "000000000000000000000000") ∧
      ∀ other : String, (ObjectIDFromHex other).2 = false →
        GetAUser zeroColl "ksdflj45ljk" = GetAUser zeroColl other ∧
        EditAUser zeroColl "ksdflj45ljk" editBody = EditAUser zeroColl other editBody ∧
        DeleteAUser zeroColl "ksdflj45ljk" = DeleteAUser zeroColl other :=
  ⟨by decide, C10_invalid_token_is_zero_identifier zeroColl editBody "ksdflj45ljk" (by decide)⟩

end RestApi
